import Mathlib

/-!
Shallow embedding of the htruong/toml repository (scanner in lex.go, node
model in node.go, tree builder and decoder in the unnamed source parts).
The scanner, tree builder and decoder are transcribed state by state and
case by case from the Go source.  Machine integers are modelled as Nat/Int,
Go float64 values as exact reduced fractions (no claim depends on
rounding), and
source positions are char indices.  The Pos fields carried by Go AST nodes
are omitted from the embedded AST: no claim refers to them and the decoder
never reads them.
-/

set_option maxHeartbeats 4000000

namespace Toml

/-- Token kinds, mirroring the tokenType constants of lex.go. -/
inductive TokTy where
  | tokError
  | tokEOF
  | tokSpace
  | tokKeyGroup
  | tokKey
  | tokKeySep
  | tokBool
  | tokNumber
  | tokString
  | tokDatetime
  | tokArrayStart
  | tokArrayEnd
  | tokArraySep
deriving DecidableEq, Repr

/-- A scanner token: kind, start position, and raw text (lex.go type token). -/
structure Tok where
  typ : TokTy
  pos : Nat
  val : String
deriving DecidableEq, Repr

/-- isSpace of lex.go. -/
def isSpace (r : Char) : Bool := r == ' ' || r == '\t'

/-- isDash of lex.go. -/
def isDash (r : Char) : Bool := r == '-'

/-- isNewLine of lex.go. -/
def isNewLine (r : Char) : Bool := r == '\n' || r == '\r'

/-- isAlpha of lex.go. -/
def isAlpha (r : Char) : Bool :=
  r == '_' || ('a' ≤ r && r ≤ 'z') || ('A' ≤ r && r ≤ 'Z')

/-- isDigit of lex.go. -/
def isDigit (r : Char) : Bool := '0' ≤ r && r ≤ '9'

/-- isAlphaNumeric of lex.go. -/
def isAlphaNumeric (r : Char) : Bool := isAlpha r || isDigit r

/-- Peek the rune at index i (lexer.next/peek on the input string). -/
def charAt (cs : List Char) (i : Nat) : Option Char := cs.get? i

/-- input[a:b], the text a token carries (lexer.emit). -/
def slice (cs : List Char) (a b : Nat) : String :=
  String.mk ((cs.drop a).take (b - a))

/-- Index after a run of spaces/tabs starting at i (ignoreSpaces / acceptRun). -/
def spaceEnd (cs : List Char) (i : Nat) : Nat :=
  i + ((cs.drop i).takeWhile isSpace).length

/-- Index of the next newline (or end of input) at or after i (lexComment). -/
def cmtEnd (cs : List Char) (i : Nat) : Nat :=
  i + ((cs.drop i).takeWhile (fun c => c != '\n')).length

/-- Index after a run of decimal digits starting at i (acceptRun digits). -/
def digitEnd (cs : List Char) (i : Nat) : Nat :=
  i + ((cs.drop i).takeWhile isDigit).length

/-- Does the input starting at index i begin with the given word (lexer.is)? -/
def wordAt (cs : List Char) (i : Nat) : List Char → Bool
  | [] => true
  | w :: ws =>
    match charAt cs i with
    | some c => c == w && wordAt cs (i + 1) ws
    | none => false

/-- The fixed datetime layout of lex.go (datetimeFormat). -/
def dtFormat : List Char :=
  ['0','0','0','0','-','0','0','-','0','0',
   'T',
   '0','0',':','0','0',':','0','0',
   'Z']

/-- Character-by-character match against dtFormat (lexDatetime loop).
Returns the index after the match, or none on the first mismatch. -/
def dtMatch (cs : List Char) : Nat → List Char → Option Nat
  | i, [] => some i
  | i, f :: fs =>
    match charAt cs i with
    | none => none
    | some r => if (f == '0' && isDigit r) || f == r then dtMatch cs (i + 1) fs else none

/-- Scanner states, named after the state functions of lex.go.  lexComment is
inlined at its two call sites (it scans to end of line and resumes). -/
inductive LSt where
  | stStart
  | stKeyGroup
  | stKey
  | stKeySep
  | stValue
  | stString
  | stNumOrDate
  | stNum
  | stDate
deriving DecidableEq, Repr

/-- One token with kind t, start s and text input[s:p]. -/
def mkTok (cs : List Char) (t : TokTy) (s p : Nat) : Tok :=
  { typ := t, pos := s, val := slice cs s p }

/-- An error token (lexer.errorf): carries the message, positioned at start. -/
def errTok (s : Nat) (msg : String) : Tok :=
  { typ := TokTy.tokError, pos := s, val := msg }

/-- The scanner state machine of lex.go, transcribed case by case.
Arguments: fuel, state, pos, start, arrayDepth.  Fuel only bounds the
recursion; lexAll supplies enough for any input. -/
def lexGo (cs : List Char) : Nat → LSt → Nat → Nat → Int → List Tok
  | 0, _, _, _, _ => []
  | fuel + 1, LSt.stStart, pos, start, depth =>
    match charAt cs pos with
    | none => [mkTok cs TokTy.tokEOF start pos]
    | some r =>
      if isDash r then
        lexGo cs fuel LSt.stStart (pos + 1) (pos + 1) depth
      else if isNewLine r then
        match charAt cs (pos + 1) with
        | some r2 =>
          if isNewLine r2 then [mkTok cs TokTy.tokEOF start (pos + 1)]
          else lexGo cs fuel LSt.stStart (pos + 1) (pos + 1) depth
        | none => lexGo cs fuel LSt.stStart (pos + 1) (pos + 1) depth
      else if isSpace r then
        let e := spaceEnd cs (pos + 1)
        lexGo cs fuel LSt.stStart e e depth
      else if r == '#' then
        let e := cmtEnd cs (pos + 1)
        lexGo cs fuel LSt.stStart e e depth
      else if r == '[' then
        lexGo cs fuel LSt.stKeyGroup (pos + 1) start depth
      else if isAlpha r then
        lexGo cs fuel LSt.stKey (pos + 1) start depth
      else
        [errTok start ("lexStart parse error " ++ toString r)]
  | fuel + 1, LSt.stKeyGroup, pos, start, depth =>
    match charAt cs pos with
    | none => [errTok start "bad keygroup name EOF"]
    | some r =>
      if r == ']' then
        mkTok cs TokTy.tokKeyGroup start (pos + 1) ::
          lexGo cs fuel LSt.stStart (pos + 1) (pos + 1) depth
      else if isAlphaNumeric r || r == '.' then
        lexGo cs fuel LSt.stKeyGroup (pos + 1) start depth
      else
        [errTok start ("bad keygroup name " ++ toString r)]
  | fuel + 1, LSt.stKey, pos, start, depth =>
    match charAt cs pos with
    | none => [errTok start "bad keyname EOF"]
    | some r =>
      if isAlphaNumeric r then
        lexGo cs fuel LSt.stKey (pos + 1) start depth
      else if isSpace r then
        mkTok cs TokTy.tokKey start pos ::
          lexGo cs fuel LSt.stKeySep pos pos depth
      else
        [errTok start ("bad keyname " ++ toString r)]
  | fuel + 1, LSt.stKeySep, pos, _start, depth =>
    let e := spaceEnd cs pos
    match charAt cs e with
    | none => [errTok e "bad key seperator EOF"]
    | some r =>
      if r == '=' || r == ':' then
        mkTok cs TokTy.tokKeySep e (e + 1) ::
          lexGo cs fuel LSt.stValue (e + 1) (e + 1) depth
      else
        [errTok e ("bad key seperator " ++ toString r)]
  | fuel + 1, LSt.stValue, pos, start, depth =>
    match charAt cs pos with
    | none => [mkTok cs TokTy.tokEOF start pos]
    | some r =>
      if r == '\r' then
        lexGo cs fuel LSt.stValue (pos + 1) (pos + 1) depth
      else if r == '\n' then
        if depth == 0 then lexGo cs fuel LSt.stStart (pos + 1) (pos + 1) depth
        else lexGo cs fuel LSt.stValue (pos + 1) (pos + 1) depth
      else if isSpace r then
        let e := spaceEnd cs (pos + 1)
        lexGo cs fuel LSt.stValue e e depth
      else if r == '#' then
        let e := cmtEnd cs (pos + 1)
        lexGo cs fuel LSt.stValue e e depth
      else if r == '"' then
        lexGo cs fuel LSt.stString (pos + 1) start depth
      else if r == '[' then
        mkTok cs TokTy.tokArrayStart start (pos + 1) ::
          lexGo cs fuel LSt.stValue (pos + 1) (pos + 1) (depth + 1)
      else if r == ']' then
        if depth - 1 < 0 then [errTok start ("unexpected array end " ++ toString r)]
        else
          mkTok cs TokTy.tokArrayEnd start (pos + 1) ::
            lexGo cs fuel LSt.stValue (pos + 1) (pos + 1) (depth - 1)
      else if r == ',' then
        if depth > 0 then
          mkTok cs TokTy.tokArraySep start (pos + 1) ::
            lexGo cs fuel LSt.stValue (pos + 1) (pos + 1) depth
        else [errTok start "unexpected comma outside array"]
      else if r == '+' || r == '-' then
        lexGo cs fuel LSt.stNum pos start depth
      else if isDigit r then
        lexGo cs fuel LSt.stNumOrDate pos start depth
      else if wordAt cs pos ("true".data) then
        mkTok cs TokTy.tokBool start (pos + 4) ::
          lexGo cs fuel LSt.stStart (pos + 4) (pos + 4) depth
      else if wordAt cs pos ("false".data) then
        mkTok cs TokTy.tokBool start (pos + 5) ::
          lexGo cs fuel LSt.stStart (pos + 5) (pos + 5) depth
      else
        [errTok start ("bad value " ++ toString r)]
  | fuel + 1, LSt.stString, pos, start, depth =>
    match charAt cs pos with
    | none => [errTok start "unterminated string"]
    | some r =>
      if r == '\\' then
        match charAt cs (pos + 1) with
        | none => [errTok start "unterminated string"]
        | some _ => lexGo cs fuel LSt.stString (pos + 2) start depth
      else if r == '\n' then [errTok start "unterminated string"]
      else if r == '"' then
        mkTok cs TokTy.tokString start (pos + 1) ::
          lexGo cs fuel LSt.stValue (pos + 1) (pos + 1) depth
      else
        lexGo cs fuel LSt.stString (pos + 1) start depth
  | fuel + 1, LSt.stNumOrDate, pos, start, depth =>
    if pos + 4 < cs.length && charAt cs (pos + 4) == some '-' then
      lexGo cs fuel LSt.stDate pos start depth
    else
      lexGo cs fuel LSt.stNum pos start depth
  | fuel + 1, LSt.stNum, pos, start, depth =>
    let p1 := if charAt cs pos == some '+' || charAt cs pos == some '-' then pos + 1 else pos
    let p2 := digitEnd cs p1
    let p3 := if charAt cs p2 == some '.' then digitEnd cs (p2 + 1) else p2
    match charAt cs p3 with
    | some r =>
      if isAlphaNumeric r || r == '-' then
        [errTok start ("bad number syntax: " ++ slice cs start (p3 + 1))]
      else
        mkTok cs TokTy.tokNumber start p3 ::
          lexGo cs fuel LSt.stValue p3 p3 depth
    | none =>
      mkTok cs TokTy.tokNumber start p3 ::
        lexGo cs fuel LSt.stValue p3 p3 depth
  | fuel + 1, LSt.stDate, pos, start, depth =>
    match dtMatch cs pos dtFormat with
    | some p =>
      mkTok cs TokTy.tokDatetime start p ::
        lexGo cs fuel LSt.stValue p p depth
    | none => [errTok start "bad datetime"]

/-- Run the scanner over a whole input, with enough fuel to finish. -/
def lexAll (s : String) : List Tok :=
  lexGo s.data (4 * s.data.length + 16) LSt.stStart 0 0 0

/-! ## AST (node.go) -/

/-- A validated RFC3339 timestamp (DatetimeNode's time.Time, UTC layout). -/
structure DatetimeV where
  year : Nat
  month : Nat
  day : Nat
  hour : Nat
  minute : Nat
  second : Nat
deriving DecidableEq, Repr

/-- Euclid's algorithm with explicit fuel (the library gcd is compiled by
well-founded recursion and would not evaluate definitionally; the fuel
supplied by gcdN always suffices). -/
def gcdFuel : Nat → Nat → Nat → Nat
  | 0, _, b => b
  | fuel + 1, a, b => if a = 0 then b else gcdFuel fuel (b % a) a

/-- Greatest common divisor. -/
def gcdN (a b : Nat) : Nat := gcdFuel (a + b + 2) a b

/-- An exact fraction, the model of a Go float64 value (no claim depends
on float rounding).  Fractions are kept reduced by mkGoFloat. -/
structure GoFloat where
  num : Int
  den : Nat
deriving DecidableEq, Repr

/-- Build a reduced fraction. -/
def mkGoFloat (num : Int) (den : Nat) : GoFloat :=
  let g := gcdN num.natAbs den
  if g = 0 then { num := num, den := den }
  else { num := num / (g : Int), den := den / g }

/-- NumberNode of node.go: text plus the IsInt/IsFloat flags and values.
Go's float64 is modelled as an exact fraction. -/
structure NumberNode where
  isInt : Bool
  isFloat : Bool
  intVal : Int
  floatVal : GoFloat
  text : String
deriving DecidableEq, Repr

/-- A value node: BoolNode, StringNode (decoded text plus original quoted
text), NumberNode, DatetimeNode or ArrayNode. -/
inductive Value where
  | bool (b : Bool)
  | str (text quoted : String)
  | num (n : NumberNode)
  | datetime (dt : DatetimeV)
  | arr (elems : List Value)
deriving Repr

/-- A top-level node of the document list: a bare EntryNode, or an
EntryGroupNode (KeyGroupNode keys and text, plus its entries). -/
inductive TopNode where
  | entry (key : String) (value : Value)
  | group (keys : List String) (text : String) (entries : List (String × Value))
deriving Repr

/-! ## Number literal parsing (strconv.ParseInt base 0 / ParseFloat, as used
by newNumber).  These model the Go standard library on the literal shapes
the scanner can emit: an optional sign followed by digits with an optional
fraction part.  Hex/binary prefixes, underscores and exponents cannot occur
in scanner output (letters after digits are lexical errors), and float64
rounding and overflow are idealized away (no claim depends on them). -/

/-- Decimal value of a digit run. -/
def digitsToNat (ds : List Char) : Nat :=
  ds.foldl (fun a d => 10 * a + (d.toNat - '0'.toNat)) 0

/-- Octal value of a digit run. -/
def digitsToNatOct (ds : List Char) : Nat :=
  ds.foldl (fun a d => 8 * a + (d.toNat - '0'.toNat)) 0

/-- strconv.ParseInt(text, 0, 64): optional sign, then base-0 digits
(a leading 0 with more digits means octal, where a digit 8 or 9 is an
error), with the int64 range check. -/
def goParseInt (s : String) : Option Int :=
  match s.data with
  | [] => none
  | c :: cs0 =>
    let sd : Bool × List Char :=
      if c == '-' then (true, cs0) else if c == '+' then (false, cs0) else (false, c :: cs0)
    match sd with
    | (neg, ds) =>
      match ds with
      | [] => none
      | d0 :: drest =>
        if !(ds.all isDigit) then none
        else
          let v : Option Nat :=
            if d0 == '0' && drest.length > 0 then
              if ds.all (fun d => d ≤ '7') then some (digitsToNatOct ds) else none
            else some (digitsToNat ds)
          match v with
          | none => none
          | some n =>
            if neg then
              if n ≤ 2 ^ 63 then some (-(n : Int)) else none
            else
              if n ≤ 2 ^ 63 - 1 then some (n : Int) else none

/-- strconv.ParseFloat(text, 64) on scanner-producible literals:
optional sign, digit run, optional point and digit run, at least one digit;
the value is kept as an exact fraction. -/
def goParseFloat (s : String) : Option GoFloat :=
  match s.data with
  | [] => none
  | c :: cs0 =>
    let sd : Bool × List Char :=
      if c == '-' then (true, cs0) else if c == '+' then (false, cs0) else (false, c :: cs0)
    match sd with
    | (neg, ds) =>
      let ip := ds.takeWhile isDigit
      let rest := ds.drop ip.length
      let q : Option (Nat × Nat) :=
        match rest with
        | [] => if ip.isEmpty then none else some (digitsToNat ip, 1)
        | '.' :: fp =>
          if fp.all isDigit && !(ip.isEmpty && fp.isEmpty) then
            some (digitsToNat ip * 10 ^ fp.length + digitsToNat fp, 10 ^ fp.length)
          else none
        | _ => none
      match q with
      | none => none
      | some (n, d) =>
        some (mkGoFloat (if neg then -(n : Int) else (n : Int)) d)

/-- newNumber of node.go: try the integer parse first, fall back to the
floating-point parse, else fail. -/
def newNumber (text : String) : Except String NumberNode :=
  match goParseInt text with
  | some i =>
    Except.ok { isInt := true, isFloat := false, intVal := i, 
                floatVal := { num := 0, den := 1 }, text := text }
  | none =>
    match goParseFloat text with
    | some f =>
      Except.ok { isInt := false, isFloat := true, intVal := 0, floatVal := f, text := text }
    | none => Except.error ("illegal number syntax: " ++ text)

/-! ## strconv.Unquote, as called by the tree builder on string tokens.
Modelled for double-quoted strings with the single-character escapes; the
numeric (hex/octal/unicode) escapes are modelled as errors — the scanner
can emit them but no claim exercises them. -/

/-- The single-character escapes of Go quoted strings ( \' is an error in a
double-quoted string). -/
def escChar : Char → Option Char
  | 'a' => some (Char.ofNat 7)
  | 'b' => some (Char.ofNat 8)
  | 'f' => some (Char.ofNat 12)
  | 'n' => some '\n'
  | 'r' => some '\r'
  | 't' => some '\t'
  | 'v' => some (Char.ofNat 11)
  | '\\' => some '\\'
  | '"' => some '"'
  | _ => none

/-- Unquote the interior of a double-quoted string: an unescaped quote or a
bad escape is a syntax error; other characters pass through. -/
def unquoteChars : List Char → Option (List Char)
  | [] => some []
  | c :: rest =>
    if c == '"' then none
    else if c == '\\' then
      match rest with
      | [] => none
      | e :: rest2 =>
        match escChar e with
        | some d =>
          match unquoteChars rest2 with
          | some l => some (d :: l)
          | none => none
        | none => none
    else
      match unquoteChars rest with
      | some l => some (c :: l)
      | none => none

/-- strconv.Unquote on a double-quoted token: check the surrounding quotes,
reject any raw newline, then process escapes. -/
def unquoteGo (s : String) : Except String String :=
  let cs := s.data
  if cs.length < 2 then Except.error "invalid syntax"
  else
    match charAt cs 0, charAt cs (cs.length - 1) with
    | some '"', some '"' =>
      let inner := (cs.drop 1).dropLast
      if inner.contains '\n' then Except.error "invalid syntax"
      else
        match unquoteChars inner with
        | some l => Except.ok (String.mk l)
        | none => Except.error "invalid syntax"
    | _, _ => Except.error "invalid syntax"

/-! ## time.Parse(time.RFC3339, ...) on the fixed UTC layout the scanner
admits: digits and separators in fixed positions, with calendar range
checks (month, day for the month with leap years, hour, minute, second). -/

/-- Gregorian leap year. -/
def isLeap (y : Nat) : Bool :=
  (y % 4 == 0 && y % 100 != 0) || y % 400 == 0

/-- Days in a month. -/
def daysIn (y m : Nat) : Nat :=
  if m == 2 then (if isLeap y then 29 else 28)
  else if m == 4 || m == 6 || m == 9 || m == 11 then 30
  else 31

/-- Numeric value of the digit run at positions [a, b) of cs. -/
def numField (cs : List Char) (a b : Nat) : Nat :=
  digitsToNat ((cs.drop a).take (b - a))

/-- time.Parse(time.RFC3339, s) for the scanner's fixed layout
0000-00-00T00:00:00Z. -/
def rfc3339Go (s : String) : Option DatetimeV :=
  let cs := s.data
  if cs.length != 20 then none
  else if !([0,1,2,3,5,6,8,9,11,12,14,15,17,18].all fun i =>
      match charAt cs i with | some c => isDigit c | none => false) then none
  else if !(charAt cs 4 == some '-' && charAt cs 7 == some '-' &&
      charAt cs 10 == some 'T' && charAt cs 13 == some ':' &&
      charAt cs 16 == some ':' && charAt cs 19 == some 'Z') then none
  else
    let y := numField cs 0 4
    let mo := numField cs 5 7
    let d := numField cs 8 10
    let h := numField cs 11 13
    let mi := numField cs 14 16
    let sec := numField cs 17 19
    if 1 ≤ mo && mo ≤ 12 && 1 ≤ d && d ≤ daysIn y mo &&
        h ≤ 23 && mi ≤ 59 && sec ≤ 59 then
      some { year := y, month := mo, day := d, hour := h, minute := mi, second := sec }
    else none

/-! ## Tree builder (Tree.parse and friends).  The builder is a pull
consumer of the token list; tokenSpace is skipped by nextNonSpace (the
scanner never emits it, but the skip is kept).  Errors become an Except
error, modelling the errorf panic recovered in Parse. -/

/-- Token list state of the tree builder. -/
abbrev Toks := List Tok

/-- The token the builder sees past the end of the stream; unreachable in
practice since every scanner run ends with tokEOF or tokError. -/
def eofTok : Tok := { typ := TokTy.tokEOF, pos := 0, val := "" }

/-- Head token (Tree.peek). -/
def headTok : Toks → Tok
  | [] => eofTok
  | t :: _ => t

/-- Drop leading space tokens (the skipping loop of nextNonSpace). -/
def dropSpaces (ts : Toks) : Toks :=
  ts.dropWhile (fun t => t.typ == TokTy.tokSpace)

/-- strings.Split on the path separator: cut at every dot, keeping empty
pieces (Split of the empty string is one empty piece). -/
def splitDot : List Char → List Char → List String
  | [], cur => [String.mk cur.reverse]
  | c :: rest, cur =>
    if c == '.' then String.mk cur.reverse :: splitDot rest []
    else splitDot rest (c :: cur)

/-- Split a key-group token's bracketed text into its dotted components
(parseKeyGroup). -/
def keyGroupKeys (text : String) : List String :=
  splitDot ((text.data.drop 1).dropLast) []

/-- The two mutually recursive productions Tree.value and Tree.array's
loop, merged into one fuel-indexed function so that recursion is
structural on the fuel (the mutual pair would otherwise be compiled by
well-founded recursion, which does not evaluate definitionally). -/
inductive PIn where
  | val (ts : Toks)
  | arrLoop (ts : Toks) (acc : List Value)

/-- Tree.value / Tree.array.  PIn.val is value(): dispatch on the next
non-space token.  PIn.arrLoop is array()'s loop: close ends the array;
otherwise read a value, and unless the next non-space token is the close,
require a separator. -/
def pRun : Nat → PIn → Except String (Value × Toks)
  | 0, _ => Except.error "fuel exhausted"
  | fuel + 1, PIn.val ts =>
    let ds := dropSpaces ts
    let tok := headTok ds
    let rest := ds.tail
    match tok.typ with
    | TokTy.tokBool => Except.ok (Value.bool (tok.val == "true"), rest)
    | TokTy.tokNumber =>
      match newNumber tok.val with
      | Except.ok n => Except.ok (Value.num n, rest)
      | Except.error e => Except.error ("syntax error: " ++ e)
    | TokTy.tokString =>
      match unquoteGo tok.val with
      | Except.ok v => Except.ok (Value.str v tok.val, rest)
      | Except.error e => Except.error ("syntax error: " ++ e)
    | TokTy.tokDatetime =>
      match rfc3339Go tok.val with
      | some dt => Except.ok (Value.datetime dt, rest)
      | none => Except.error "syntax error: bad datetime"
    | TokTy.tokArrayStart => pRun fuel (PIn.arrLoop rest [])
    | _ => Except.error ("syntax error: unexpected " ++ tok.val ++ " in value")
  | fuel + 1, PIn.arrLoop ts acc =>
    let ds := dropSpaces ts
    let tok := headTok ds
    if tok.typ == TokTy.tokArrayEnd then
      Except.ok (Value.arr acc.reverse, ds.tail)
    else
      match pRun fuel (PIn.val ds) with
      | Except.error e => Except.error e
      | Except.ok (v, ts1) =>
        let ds1 := dropSpaces ts1
        let tok1 := headTok ds1
        if tok1.typ == TokTy.tokArrayEnd then
          pRun fuel (PIn.arrLoop ds1 (v :: acc))
        else if tok1.typ == TokTy.tokArraySep then
          pRun fuel (PIn.arrLoop ds1.tail (v :: acc))
        else
          Except.error ("syntax error: unexpected " ++ tok1.val ++ " in array")

/-- Tree.value. -/
def pValue (fuel : Nat) (ts : Toks) : Except String (Value × Toks) :=
  pRun fuel (PIn.val ts)

/-- Tree.entry: key token, expect the key separator, then a value. -/
def pEntry (fuel : Nat) (ts : Toks) : Except String ((String × Value) × Toks) :=
  let ds := dropSpaces ts
  let tok := headTok ds
  let ds1 := dropSpaces ds.tail
  let tok1 := headTok ds1
  if tok1.typ == TokTy.tokKeySep then
    match pValue fuel ds1.tail with
    | Except.ok (v, ts2) => Except.ok ((tok.val, v), ts2)
    | Except.error e => Except.error e
  else
    Except.error ("syntax error: unexpected " ++ tok1.val ++ " in key seperator")

/-- Tree.entryGroup's loop: keep reading entries while the next non-space
token is a key. -/
def pGroupEntries : Nat → Toks → List (String × Value) →
    Except String (List (String × Value) × Toks)
  | 0, _, _ => Except.error "fuel exhausted"
  | fuel + 1, ts, acc =>
    let ds := dropSpaces ts
    let tok := headTok ds
    if tok.typ == TokTy.tokKey then
      match pEntry fuel ds with
      | Except.ok (e, ts1) => pGroupEntries fuel ts1 (e :: acc)
      | Except.error e => Except.error e
    else
      Except.ok (acc.reverse, ds)

/-- Tree.entryGroup: consume the key-group token, split its keys, read the
following entries. -/
def pEntryGroup (fuel : Nat) (ts : Toks) : Except String (TopNode × Toks) :=
  let ds := dropSpaces ts
  let tok := headTok ds
  match pGroupEntries fuel ds.tail [] with
  | Except.ok (es, ts1) => Except.ok (TopNode.group (keyGroupKeys tok.val) tok.val es, ts1)
  | Except.error e => Except.error e

/-- Tree.top: an error token aborts; a key-group or key token dispatches. -/
def pTop (fuel : Nat) (ts : Toks) : Except String (TopNode × Toks) :=
  let ds := dropSpaces ts
  let tok := headTok ds
  match tok.typ with
  | TokTy.tokError => Except.error ("syntax error: " ++ tok.val)
  | TokTy.tokKeyGroup => pEntryGroup fuel ds
  | TokTy.tokKey =>
    match pEntry fuel ds with
    | Except.ok (e, ts1) => Except.ok (TopNode.entry e.1 e.2, ts1)
    | Except.error e => Except.error e
  | _ => Except.error ("syntax error: unexpected " ++ tok.val)

/-- Tree.parse's loop: until the peeked token is EOF, read a top node. -/
def pDoc : Nat → Toks → List TopNode → Except String (List TopNode)
  | 0, _, _ => Except.error "fuel exhausted"
  | fuel + 1, ts, acc =>
    let tok := headTok ts
    if tok.typ == TokTy.tokEOF then Except.ok acc.reverse
    else
      match pTop fuel ts with
      | Except.ok (n, ts1) => pDoc fuel ts1 (n :: acc)
      | Except.error e => Except.error e

/-- Parse of the repository: scan, then build the document list. -/
def Parse (s : String) : Except String (List TopNode) :=
  let toks := lexAll s
  pDoc (2 * toks.length + 8) toks []

/-- Is the result an error? -/
def isErr {α : Type} : Except String α → Bool
  | Except.error _ => true
  | Except.ok _ => false

/-! ## Decoder (decode.top / findField / entry / value).

Go reflect values are modelled by the RTy/RVal pair: RTy describes a
target's static type (needed where the Go code asks a reflect.Value for
its element type), RVal its current contents.  Only the empty interface is
modelled (the decoder checks NumMethod() == 0 everywhere), and only
string-keyed maps occur (findField rejects other key kinds).  Interface
slots are rIface; a map entry stores the dynamic value it contains.
The decoder's reflect.Value cursor, which aliases a sub-part of the root
value, is modelled as an access path from the root (Step list); writes go
through setAt, which reproduces the in-place mutation. -/

/-- A struct field's metadata: name, toml tag ("" when absent) and
settability (CanSet). -/
structure FieldInfo where
  fname : String
  tag : String
  canSet : Bool
deriving DecidableEq, Repr

/-- A reflect value: scalars, an interface slot (none = nil), a struct with
field metadata, a slice, a fixed array, and a string-keyed map.  Where the
Go code asks a reflect.Value for its element type — to grow a slice with
zero elements (reflect.MakeSlice) or to make a fresh zero map element
(reflect.New(t.Elem()).Elem()) — the slice/map here carries that element
type's zero value directly (elemZero), which is all the decoder ever uses
the type for.  A nil interface's zero is rIface none; a decode of a
map[string]interface element therefore targets rIface none. -/
inductive RVal where
  | rBool (b : Bool)
  | rInt (i : Int)
  | rFloat (q : GoFloat)
  | rString (s : String)
  | rTime (t : DatetimeV)
  | rIface (v : Option RVal)
  | rStruct (fields : List (FieldInfo × RVal))
  | rSlice (elemZero : RVal) (xs : List RVal)
  | rArray (xs : List RVal)
  | rMap (elemZero : RVal) (entries : List (String × RVal))
deriving Repr

/-- A human-readable description of a target, for UnmarshalTypeError. -/
def kindName : RVal → String
  | RVal.rBool _ => "bool"
  | RVal.rInt _ => "int64"
  | RVal.rFloat _ => "float64"
  | RVal.rString _ => "string"
  | RVal.rTime _ => "time.Time"
  | RVal.rIface _ => "interface"
  | RVal.rStruct _ => "struct"
  | RVal.rSlice _ _ => "slice"
  | RVal.rArray _ => "array"
  | RVal.rMap _ _ => "map"

/-- UnmarshalTypeError's message. -/
def typeErr (value : String) (v : RVal) : String :=
  "toml: cannot unmarshal " ++ value ++ " into Go value of type " ++ kindName v

/-- ASCII case folding of one character (strings.EqualFold on the ASCII
keys and field names this code meets). -/
def foldChar (c : Char) : Char :=
  if 'A' ≤ c && c ≤ 'Z' then Char.ofNat (c.toNat + 32) else c

/-- strings.EqualFold, modelled on ASCII. -/
def eqFold (a b : String) : Bool :=
  a.data.map foldChar == b.data.map foldChar

/-- findField's effective field name: the toml tag, or the field's own name
when the tag is empty. -/
def effName (fi : FieldInfo) : String :=
  if fi.tag == "" then fi.fname else fi.tag

/-- findField's struct-branch comparison: name == key or EqualFold. -/
def nameMatches (fi : FieldInfo) (key : String) : Bool :=
  effName fi == key || eqFold (effName fi) key

/-- findField's struct loop: the first field whose effective name matches
the key; a matching field that cannot be set is skipped (continue). -/
def goFindIdx : List (FieldInfo × RVal) → String → Option Nat
  | [], _ => none
  | (fi, _) :: rest, key =>
    if nameMatches fi key then
      if fi.canSet then some 0
      else (goFindIdx rest key).map (· + 1)
    else (goFindIdx rest key).map (· + 1)

/-- One step of the decoder's cursor path: a struct field or a map key. -/
inductive Step where
  | fieldIdx (i : Nat)
  | mapKey (k : String)
deriving DecidableEq, Repr

/-- Lookup in a string-keyed map model. -/
def assocGet : List (String × RVal) → String → Option RVal
  | [], _ => none
  | (k0, v0) :: rest, k => if k0 == k then some v0 else assocGet rest k

/-- v.SetMapIndex(key, x): replace the binding or append a new one. -/
def mapUpsert : List (String × RVal) → String → RVal → List (String × RVal)
  | [], k, x => [(k, x)]
  | (k0, v0) :: rest, k, x =>
    if k0 == k then (k, x) :: rest else (k0, v0) :: mapUpsert rest k x

/-- Read the value the cursor points at. -/
def getAt : RVal → List Step → Option RVal
  | v, [] => some v
  | RVal.rStruct fs, Step.fieldIdx i :: p =>
    match fs.get? i with
    | some (_, v) => getAt v p
    | none => none
  | RVal.rMap _ m, Step.mapKey k :: p =>
    match assocGet m k with
    | some v => getAt v p
    | none => none
  | _, _ => none

/-- Write through the cursor (the effect of mutating an aliasing
reflect.Value).  An invalid path leaves the value unchanged; the decoder
only builds valid paths. -/
def setAt : RVal → List Step → RVal → RVal
  | _, [], nv => nv
  | RVal.rStruct fs, Step.fieldIdx i :: p, nv =>
    match fs.get? i with
    | some (fi, v) => RVal.rStruct (fs.set i (fi, setAt v p nv))
    | none => RVal.rStruct fs
  | RVal.rMap e m, Step.mapKey k :: p, nv =>
    match assocGet m k with
    | some v => RVal.rMap e (mapUpsert m k (setAt v p nv))
    | none => RVal.rMap e m
  | v, _, _ => v

/-- The dynamic value inside an interface, for storing into a map whose
elements are interfaces (Go map entries hold the dynamic value). -/
def unwrapIface : RVal → RVal
  | RVal.rIface (some x) => x
  | v => v

/-- The two mutually recursive decode loops — decode.value and its
per-index loop over an array's elements — merged into one fuel-indexed
function so that recursion is structural on the fuel (the mutual pair
would otherwise be compiled by well-founded recursion, which does not
evaluate definitionally).  DIn.one is one value decode; DIn.many decodes
node i into element i, leaving elements past the node count untouched. -/
inductive DIn where
  | one (v : RVal) (nd : Value)
  | many (ts : List RVal) (nds : List Value)

/-- Result of a decode step: a single value or an element list. -/
inductive DOut where
  | one (v : RVal)
  | many (ts : List RVal)

/-- decode.value of the decoder source, case by case: node kind against
target kind, with UnmarshalTypeError on any other pairing. -/
def decRun : Nat → DIn → Except String DOut
  | 0, _ => Except.error "recursion limit"
  | fuel + 1, DIn.one v nd =>
    match nd with
    | Value.bool b =>
      match v with
      | RVal.rBool _ => Except.ok (DOut.one (RVal.rBool b))
      | RVal.rIface _ => Except.ok (DOut.one (RVal.rIface (some (RVal.rBool b))))
      | _ => Except.error (typeErr "bool" v)
    | Value.str text _quoted =>
      match v with
      | RVal.rString _ => Except.ok (DOut.one (RVal.rString text))
      | RVal.rIface _ => Except.ok (DOut.one (RVal.rIface (some (RVal.rString text))))
      | _ => Except.error (typeErr "string" v)
    | Value.num n =>
      match v with
      | RVal.rInt _ =>
        if !n.isInt then Except.error (typeErr "int" v)
        else Except.ok (DOut.one (RVal.rInt n.intVal))
      | RVal.rFloat _ =>
        if !n.isFloat then Except.error (typeErr "float" v)
        else Except.ok (DOut.one (RVal.rFloat n.floatVal))
      | RVal.rIface _ =>
        Except.ok (DOut.one (RVal.rIface
          (some (if n.isInt then RVal.rInt n.intVal else RVal.rFloat n.floatVal))))
      | _ => Except.error (typeErr "number" v)
    | Value.datetime dt =>
      match v with
      | RVal.rTime _ => Except.ok (DOut.one (RVal.rTime dt))
      | RVal.rIface _ => Except.ok (DOut.one (RVal.rIface (some (RVal.rTime dt))))
      | _ => Except.error (typeErr "datetime" v)
    | Value.arr nodes =>
      match v with
      | RVal.rIface _ =>
        match decRun fuel (DIn.many (List.replicate nodes.length (RVal.rIface none)) nodes) with
        | Except.ok (DOut.many xs) =>
          Except.ok (DOut.one (RVal.rIface (some (RVal.rSlice (RVal.rIface none) xs))))
        | Except.ok (DOut.one _) => Except.error "internal: wrong decode arity"
        | Except.error e => Except.error e
      | RVal.rArray xs =>
        if xs.length < nodes.length then
          Except.error "run out of fixed array"
        else
          match decRun fuel (DIn.many xs nodes) with
          | Except.ok (DOut.many xs2) => Except.ok (DOut.one (RVal.rArray xs2))
          | Except.ok (DOut.one _) => Except.error "internal: wrong decode arity"
          | Except.error e => Except.error e
      | RVal.rSlice z xs =>
        let xs0 :=
          if xs.length < nodes.length then
            xs ++ List.replicate (nodes.length - xs.length) z
          else xs
        match decRun fuel (DIn.many xs0 nodes) with
        | Except.ok (DOut.many xs2) => Except.ok (DOut.one (RVal.rSlice z xs2))
        | Except.ok (DOut.one _) => Except.error "internal: wrong decode arity"
        | Except.error e2 => Except.error e2
      | _ => Except.error (typeErr "array" v)
  | fuel + 1, DIn.many ts nds =>
    match ts, nds with
    | ts, [] => Except.ok (DOut.many ts)
    | [], _ :: _ => Except.error "index out of range"
    | t :: ts, nd :: nds =>
      match decRun fuel (DIn.one t nd) with
      | Except.ok (DOut.one t2) =>
        match decRun fuel (DIn.many ts nds) with
        | Except.ok (DOut.many ts2) => Except.ok (DOut.many (t2 :: ts2))
        | Except.ok (DOut.one _) => Except.error "internal: wrong decode arity"
        | Except.error e => Except.error e
      | Except.ok (DOut.many _) => Except.error "internal: wrong decode arity"
      | Except.error e => Except.error e

/-- decode.value: one value decode, through decRun. -/
def decodeValue (fuel : Nat) (v : RVal) (nd : Value) : Except String RVal :=
  match decRun fuel (DIn.one v nd) with
  | Except.ok (DOut.one r) => Except.ok r
  | Except.ok (DOut.many _) => Except.error "internal: wrong decode arity"
  | Except.error e => Except.error e

/-- decode.entry at the cursor: findField with context "entry", silently
skipping a struct key with no matching field, decoding into a fresh zero
map element or in place into a struct field.  A map entry stores the
dynamic value the interface holds (unwrapIface). -/
def entryGo (fuel : Nat) (root : RVal) (cursor : List Step) (key : String) (vnode : Value) :
    Except String RVal :=
  match getAt root cursor with
  | none => Except.error "internal: invalid cursor"
  | some v =>
    match v with
    | RVal.rMap z m =>
      match decodeValue fuel z vnode with
      | Except.ok f =>
        Except.ok (setAt root cursor (RVal.rMap z (mapUpsert m key (unwrapIface f))))
      | Except.error err => Except.error err
    | RVal.rStruct fs =>
      match goFindIdx fs key with
      | none => Except.ok root
      | some i =>
        match fs.get? i with
        | some (fi, fv) =>
          match decodeValue fuel fv vnode with
          | Except.ok fv2 => Except.ok (setAt root cursor (RVal.rStruct (fs.set i (fi, fv2))))
          | Except.error err => Except.error err
        | none => Except.error "internal: invalid field index"
    | _ => Except.error (typeErr "entry" v)

/-- One key-group descent step (findField with context "keygroup"): a map
target gets a fresh empty map[string]interface set at the key and the
cursor moves into it; a struct target moves the cursor to the matching
field, or reports no match (ok = false); anything else is a type error.
Returns the possibly updated root and the new cursor (none = no match). -/
def descendOne (root : RVal) (cursor : List Step) (key : String) :
    Except String (RVal × Option (List Step)) :=
  match getAt root cursor with
  | none => Except.error "internal: invalid cursor"
  | some v =>
    match v with
    | RVal.rMap z m =>
      let next : RVal := RVal.rMap (RVal.rIface none) []
      Except.ok (setAt root cursor (RVal.rMap z (mapUpsert m key next)),
        some (cursor ++ [Step.mapKey key]))
    | RVal.rStruct fs =>
      match goFindIdx fs key with
      | some i => Except.ok (root, some (cursor ++ [Step.fieldIdx i]))
      | none => Except.ok (root, none)
    | _ => Except.error (typeErr "keygroup" v)

/-- The loop over a group header's key components in decode.top.  A
no-match stops with none (top then returns silently, keeping the side
effects already made). -/
def descendKeys (root : RVal) (cursor : List Step) :
    List String → Except String (RVal × Option (List Step))
  | [] => Except.ok (root, some cursor)
  | k :: ks =>
    match descendOne root cursor k with
    | Except.ok (r2, some c2) => descendKeys r2 c2 ks
    | Except.ok (r2, none) => Except.ok (r2, none)
    | Except.error e => Except.error e

/-- The loop over a group's entries in decode.top. -/
def applyEntries (fuel : Nat) (root : RVal) (cursor : List Step) :
    List (String × Value) → Except String RVal
  | [] => Except.ok root
  | (k, v) :: rest =>
    match entryGo fuel root cursor k v with
    | Except.ok r2 => applyEntries fuel r2 cursor rest
    | Except.error e => Except.error e

/-- decode.top: iterate over the document's top-level nodes.  The cursor
variable v is reassigned while descending a group's key path and stays
reassigned for the following nodes; when a group key has no matching
field, top returns silently and the remaining nodes are never processed. -/
def topGo (fuel : Nat) (root : RVal) (cursor : List Step) :
    List TopNode → Except String RVal
  | [] => Except.ok root
  | TopNode.group keys _text entries :: rest =>
    match descendKeys root cursor keys with
    | Except.ok (r1, some c1) =>
      match applyEntries fuel r1 c1 entries with
      | Except.ok r2 => topGo fuel r2 c1 rest
      | Except.error e => Except.error e
    | Except.ok (r1, none) => Except.ok r1
    | Except.error e => Except.error e
  | TopNode.entry k v :: rest =>
    match entryGo fuel root cursor k v with
    | Except.ok r2 => topGo fuel r2 cursor rest
    | Except.error e => Except.error e

/-- Fuel that bounds any value's decode recursion depth in a document the
tree builder produced: every array nesting level consumed at least one
token, so the token count (plus slack) over-approximates the depth. -/
def decodeFuel (s : String) : Nat :=
  2 * (lexAll s).length + 8

/-- Unmarshal into a typed (struct) target: parse, then decode from the
root with an empty cursor. -/
def unmarshalInto (target : RVal) (s : String) : Except String RVal :=
  match Parse s with
  | Except.ok doc => topGo (decodeFuel s) target [] doc
  | Except.error e => Except.error e

/-- Unmarshal into a nil interface: a fresh map[string]interface is
created, decoded into, and returned (Unmarshal's dynamic branch). -/
def unmarshalDyn (s : String) : Except String RVal :=
  match Parse s with
  | Except.ok doc => topGo (decodeFuel s) (RVal.rMap (RVal.rIface none) []) [] doc
  | Except.error e => Except.error e

/-! ## Shared concrete targets and value shorthands used by the theorems. -/

/-- An integer NumberNode as the tree builder produces it. -/
def numLit (i : Int) (t : String) : Value :=
  Value.num { isInt := true, isFloat := false, intVal := i, 
              floatVal := { num := 0, den := 1 }, text := t }

/-- The struct Rc { A int; User struct { Name string } } of the repository's
decode test, as a zeroed decode target. -/
def rcT : RVal :=
  RVal.rStruct
    [({ fname := "A", tag := "", canSet := true }, RVal.rInt 0),
     ({ fname := "User", tag := "", canSet := true },
       RVal.rStruct [({ fname := "Name", tag := "", canSet := true }, RVal.rString "")])]

/-- A struct with one field Owner, itself a struct with one string field
Name (the section-group scoping example of the spec), zeroed. -/
def sOwner : RVal :=
  RVal.rStruct
    [({ fname := "Owner", tag := "", canSet := true },
      RVal.rStruct [({ fname := "Name", tag := "", canSet := true }, RVal.rString "")])]

/-- The field-resolution rule as the spec words it, for comparison with
goFindIdx: an explicit tag must equal the key exactly; only an untagged
field falls back to a case-insensitive comparison with its natural name. -/
def specFindIdx : List (FieldInfo × RVal) → String → Option Nat
  | [], _ => none
  | (fi, _) :: rest, key =>
    if (fi.tag != "" && fi.tag == key) || (fi.tag == "" && eqFold fi.fname key) then some 0
    else (specFindIdx rest key).map (· + 1)

/-- The resolution rule the code implements, written directly:
case-insensitive match of the key against the effective name (tag, or the
field name when untagged); the first settable match wins. -/
def ciFindIdx : List (FieldInfo × RVal) → String → Option Nat
  | [], _ => none
  | (fi, _) :: rest, key =>
    if fi.canSet && eqFold (effName fi) key then some 0
    else (ciFindIdx rest key).map (· + 1)

/-- Exactly-one-of invariant checker for a constructed NumberNode. -/
def numberXor : Except String NumberNode → Bool
  | Except.error _ => true
  | Except.ok n => n.isInt != n.isFloat

/-! ## Structural equality testers.

Decidable equality cannot be derived for the nested inductives Value,
TopNode and RVal, and their well-founded-recursion comparison functions
would not evaluate definitionally, so equality testers are written as
fuel-indexed functions over a comparison queue and proved sound; concrete
equality theorems then follow by evaluating the tester. -/

/-- Comparison queue for the parser-side types. -/
inductive VQ where
  | v (a b : Value)
  | vs (a b : List Value)
  | ent (a b : List (String × Value))
  | top (a b : TopNode)
  | doc (a b : List TopNode)

/-- Structural equality tester for values, entry lists, top-level nodes
and documents. -/
def vbeqRun : Nat → VQ → Bool
  | 0, _ => false
  | fuel + 1, VQ.v a b =>
    match a, b with
    | Value.bool x, Value.bool y => decide (x = y)
    | Value.str t q, Value.str t2 q2 => decide (t = t2) && decide (q = q2)
    | Value.num x, Value.num y => decide (x = y)
    | Value.datetime x, Value.datetime y => decide (x = y)
    | Value.arr xs, Value.arr ys => vbeqRun fuel (VQ.vs xs ys)
    | _, _ => false
  | fuel + 1, VQ.vs a b =>
    match a, b with
    | [], [] => true
    | x :: xs, y :: ys => vbeqRun fuel (VQ.v x y) && vbeqRun fuel (VQ.vs xs ys)
    | _, _ => false
  | fuel + 1, VQ.ent a b =>
    match a, b with
    | [], [] => true
    | (k, x) :: xs, (k2, y) :: ys =>
      decide (k = k2) && vbeqRun fuel (VQ.v x y) && vbeqRun fuel (VQ.ent xs ys)
    | _, _ => false
  | fuel + 1, VQ.top a b =>
    match a, b with
    | TopNode.entry k x, TopNode.entry k2 y => decide (k = k2) && vbeqRun fuel (VQ.v x y)
    | TopNode.group ks t es, TopNode.group ks2 t2 es2 =>
      decide (ks = ks2) && decide (t = t2) && vbeqRun fuel (VQ.ent es es2)
    | _, _ => false
  | fuel + 1, VQ.doc a b =>
    match a, b with
    | [], [] => true
    | x :: xs, y :: ys => vbeqRun fuel (VQ.top x y) && vbeqRun fuel (VQ.doc xs ys)
    | _, _ => false

/-- Equality tester for Parse results. -/
def parseBEq (fuel : Nat) (a b : Except String (List TopNode)) : Bool :=
  match a, b with
  | Except.ok d, Except.ok d2 => vbeqRun fuel (VQ.doc d d2)
  | Except.error e, Except.error e2 => decide (e = e2)
  | _, _ => false

/-- Comparison queue for decoder values. -/
inductive RQ where
  | r (a b : RVal)
  | rs (a b : List RVal)
  | flds (a b : List (FieldInfo × RVal))
  | ms (a b : List (String × RVal))

/-- Structural equality tester for decoder values, element lists, field
lists and map entry lists. -/
def rbeqRun : Nat → RQ → Bool
  | 0, _ => false
  | fuel + 1, RQ.r a b =>
    match a, b with
    | RVal.rBool x, RVal.rBool y => decide (x = y)
    | RVal.rInt x, RVal.rInt y => decide (x = y)
    | RVal.rFloat x, RVal.rFloat y => decide (x = y)
    | RVal.rString x, RVal.rString y => decide (x = y)
    | RVal.rTime x, RVal.rTime y => decide (x = y)
    | RVal.rIface x, RVal.rIface y =>
      match x, y with
      | none, none => true
      | some u, some w => rbeqRun fuel (RQ.r u w)
      | _, _ => false
    | RVal.rStruct fs1, RVal.rStruct fs2 => rbeqRun fuel (RQ.flds fs1 fs2)
    | RVal.rSlice z xs, RVal.rSlice z2 ys =>
      rbeqRun fuel (RQ.r z z2) && rbeqRun fuel (RQ.rs xs ys)
    | RVal.rArray xs, RVal.rArray ys => rbeqRun fuel (RQ.rs xs ys)
    | RVal.rMap z m, RVal.rMap z2 m2 =>
      rbeqRun fuel (RQ.r z z2) && rbeqRun fuel (RQ.ms m m2)
    | _, _ => false
  | fuel + 1, RQ.rs a b =>
    match a, b with
    | [], [] => true
    | x :: xs, y :: ys => rbeqRun fuel (RQ.r x y) && rbeqRun fuel (RQ.rs xs ys)
    | _, _ => false
  | fuel + 1, RQ.flds a b =>
    match a, b with
    | [], [] => true
    | (fi, x) :: xs, (fi2, y) :: ys =>
      decide (fi = fi2) && rbeqRun fuel (RQ.r x y) && rbeqRun fuel (RQ.flds xs ys)
    | _, _ => false
  | fuel + 1, RQ.ms a b =>
    match a, b with
    | [], [] => true
    | (k, x) :: xs, (k2, y) :: ys =>
      decide (k = k2) && rbeqRun fuel (RQ.r x y) && rbeqRun fuel (RQ.ms xs ys)
    | _, _ => false

/-- Equality tester for decode results. -/
def rvalResBEq (fuel : Nat) (a b : Except String RVal) : Bool :=
  match a, b with
  | Except.ok v, Except.ok w => rbeqRun fuel (RQ.r v w)
  | Except.error e, Except.error e2 => decide (e = e2)
  | _, _ => false

/-! ## Helper lemmas. -/

/-- The exact-equality disjunct of findField's comparison is absorbed by
EqualFold. -/
theorem nameMatches_eqFold (fi : FieldInfo) (key : String) :
    nameMatches fi key = eqFold (effName fi) key := by
  unfold nameMatches
  cases h : effName fi == key with
  | false => simp
  | true =>
    have he : effName fi = key := eq_of_beq h
    rw [he]
    simp [eqFold]

/-- The decoder's element loop, on success, returns exactly as many
elements as it was given. -/
theorem decRun_many_length :
    ∀ (fuel : Nat) (ts : List RVal) (nds : List Value) (ys : List RVal),
      decRun fuel (DIn.many ts nds) = Except.ok (DOut.many ys) → ys.length = ts.length := by
  intro fuel
  induction fuel with
  | zero =>
    intro ts nds ys h
    simp [decRun] at h
  | succ fuel ih =>
    intro ts nds ys h
    cases nds with
    | nil =>
      cases ts with
      | nil => simp only [decRun] at h; cases h; rfl
      | cons t ts => simp only [decRun] at h; cases h; rfl
    | cons nd nds =>
      cases ts with
      | nil => simp only [decRun] at h; cases h
      | cons t ts =>
        simp only [decRun] at h
        cases h1 : decRun fuel (DIn.one t nd) with
        | error e => rw [h1] at h; cases h
        | ok o =>
          rw [h1] at h
          cases o with
          | many _ => cases h
          | one t2 =>
            cases h2 : decRun fuel (DIn.many ts nds) with
            | error e => rw [h2] at h; cases h
            | ok o2 =>
              rw [h2] at h
              cases o2 with
              | one _ => cases h
              | many ts2 =>
                cases h
                simp [ih ts nds ts2 h2]

/-- The tester is sound: a successful comparison means equality, at every
queue entry. -/
theorem vbeqRun_sound :
    ∀ fuel : Nat,
      (∀ a b, vbeqRun fuel (VQ.v a b) = true → a = b)
    ∧ (∀ a b, vbeqRun fuel (VQ.vs a b) = true → a = b)
    ∧ (∀ a b, vbeqRun fuel (VQ.ent a b) = true → a = b)
    ∧ (∀ a b, vbeqRun fuel (VQ.top a b) = true → a = b)
    ∧ (∀ a b, vbeqRun fuel (VQ.doc a b) = true → a = b) := by
  intro fuel
  induction fuel with
  | zero =>
    refine ⟨?_, ?_, ?_, ?_, ?_⟩ <;> intro a b h <;> simp [vbeqRun] at h
  | succ fuel ih =>
    obtain ⟨ih1, ih2, ih3, ih4, ih5⟩ := ih
    refine ⟨?_, ?_, ?_, ?_, ?_⟩
    · intro a b h
      cases a <;> cases b <;>
        simp only [vbeqRun, Bool.and_eq_true, decide_eq_true_eq] at h <;>
        first
          | rfl
          | exact Bool.noConfusion h
          | skip
      · rw [h]
      · rw [h.1, h.2]
      · rw [h]
      · rw [h]
      · rw [ih2 _ _ h]
    · intro a b h
      cases a <;> cases b <;>
        simp only [vbeqRun, Bool.and_eq_true, decide_eq_true_eq] at h <;>
        first
          | rfl
          | exact Bool.noConfusion h
          | skip
      rw [ih1 _ _ h.1, ih2 _ _ h.2]
    · intro a b h
      cases a <;> cases b <;>
        simp only [vbeqRun, Bool.and_eq_true, decide_eq_true_eq] at h <;>
        first
          | rfl
          | exact Bool.noConfusion h
          | skip
      case cons.cons p ps q qs =>
        cases p
        cases q
        simp only [vbeqRun, Bool.and_eq_true, decide_eq_true_eq] at h
        rw [h.1.1, ih1 _ _ h.1.2, ih3 _ _ h.2]
    · intro a b h
      cases a <;> cases b <;>
        simp only [vbeqRun, Bool.and_eq_true, decide_eq_true_eq] at h <;>
        first
          | rfl
          | exact Bool.noConfusion h
          | skip
      · rw [h.1, ih1 _ _ h.2]
      · rw [h.1.1, h.1.2, ih3 _ _ h.2]
    · intro a b h
      cases a <;> cases b <;>
        simp only [vbeqRun, Bool.and_eq_true, decide_eq_true_eq] at h <;>
        first
          | rfl
          | exact Bool.noConfusion h
          | skip
      rw [ih4 _ _ h.1, ih5 _ _ h.2]

/-- Soundness of the Parse-result tester. -/
theorem parseBEq_sound (fuel : Nat) (a b : Except String (List TopNode))
    (h : parseBEq fuel a b = true) : a = b := by
  cases a <;> cases b <;>
    simp only [parseBEq, decide_eq_true_eq] at h <;>
    try exact Bool.noConfusion h
  · rw [h]
  · rw [(vbeqRun_sound fuel).2.2.2.2 _ _ h]

/-- The decoder-value tester is sound at every queue entry. -/
theorem rbeqRun_sound :
    ∀ fuel : Nat,
      (∀ a b, rbeqRun fuel (RQ.r a b) = true → a = b)
    ∧ (∀ a b, rbeqRun fuel (RQ.rs a b) = true → a = b)
    ∧ (∀ a b, rbeqRun fuel (RQ.flds a b) = true → a = b)
    ∧ (∀ a b, rbeqRun fuel (RQ.ms a b) = true → a = b) := by
  intro fuel
  induction fuel with
  | zero =>
    refine ⟨?_, ?_, ?_, ?_⟩ <;> intro a b h <;> simp [rbeqRun] at h
  | succ fuel ih =>
    obtain ⟨ih1, ih2, ih3, ih4⟩ := ih
    refine ⟨?_, ?_, ?_, ?_⟩
    · intro a b h
      cases a <;> cases b <;>
        simp only [rbeqRun, Bool.and_eq_true, decide_eq_true_eq] at h <;>
        first
          | rfl
          | exact Bool.noConfusion h
          | skip
      case rBool.rBool => rw [h]
      case rInt.rInt => rw [h]
      case rFloat.rFloat => rw [h]
      case rString.rString => rw [h]
      case rTime.rTime => rw [h]
      case rIface.rIface x y =>
        cases x <;> cases y <;>
          simp only [rbeqRun] at h <;>
          first
            | rfl
            | exact Bool.noConfusion h
            | skip
        rw [ih1 _ _ h]
      case rStruct.rStruct => rw [ih3 _ _ h]
      case rSlice.rSlice => rw [ih1 _ _ h.1, ih2 _ _ h.2]
      case rArray.rArray => rw [ih2 _ _ h]
      case rMap.rMap => rw [ih1 _ _ h.1, ih4 _ _ h.2]
    · intro a b h
      cases a <;> cases b <;>
        simp only [rbeqRun, Bool.and_eq_true, decide_eq_true_eq] at h <;>
        first
          | rfl
          | exact Bool.noConfusion h
          | skip
      rw [ih1 _ _ h.1, ih2 _ _ h.2]
    · intro a b h
      cases a <;> cases b <;>
        simp only [rbeqRun, Bool.and_eq_true, decide_eq_true_eq] at h <;>
        first
          | rfl
          | exact Bool.noConfusion h
          | skip
      case cons.cons p ps q qs =>
        cases p
        cases q
        simp only [rbeqRun, Bool.and_eq_true, decide_eq_true_eq] at h
        rw [h.1.1, ih1 _ _ h.1.2, ih3 _ _ h.2]
    · intro a b h
      cases a <;> cases b <;>
        simp only [rbeqRun, Bool.and_eq_true, decide_eq_true_eq] at h <;>
        first
          | rfl
          | exact Bool.noConfusion h
          | skip
      case cons.cons p ps q qs =>
        cases p
        cases q
        simp only [rbeqRun, Bool.and_eq_true, decide_eq_true_eq] at h
        rw [h.1.1, ih1 _ _ h.1.2, ih4 _ _ h.2]

/-- Soundness of the decode-result tester. -/
theorem rvalResBEq_sound (fuel : Nat) (a b : Except String RVal)
    (h : rvalResBEq fuel a b = true) : a = b := by
  cases a <;> cases b <;>
    simp only [rvalResBEq, decide_eq_true_eq] at h <;>
    try exact Bool.noConfusion h
  · rw [h]
  · rw [(rbeqRun_sound fuel).1 _ _ h]
/-! ## Claim theorems. -/

/-- Claim C1, counterexample: inserting a single blank line right after the
section header changes the parsed Document — the scanner stops at the
blank line, so the entry x = 1 is lost and the group comes back empty. -/
theorem c1_counterexample :
    Parse "[a]\nx = 1" =
      Except.ok [TopNode.group ["a"] "[a]" [("x", numLit 1 "1")]]
  ∧ Parse "[a]\n\nx = 1" = Except.ok [TopNode.group ["a"] "[a]" []] :=
  ⟨parseBEq_sound 1000 _ _ (by decide), parseBEq_sound 1000 _ _ (by decide)⟩

/-- Claim C1, amended: comment lines between entries are skipped without
changing the parsed Document, and so is a single blank line between
number-valued entries (the value scan has already consumed the entry's
newline); but whenever the scanner's start state reads a newline
immediately followed by another newline it emits end-of-input — a blank
line directly after a section header, or after a boolean-valued entry,
truncates the rest of the document. -/
theorem c1_amended_thm :
    Parse "a = 1\n# c\nb = 2" = Parse "a = 1\nb = 2"
  ∧ Parse "a = 1\n\nb = 2" = Parse "a = 1\nb = 2"
  ∧ lexAll "[a]\n\nx = 1" =
      [{ typ := TokTy.tokKeyGroup, pos := 0, val := "[a]" },
       { typ := TokTy.tokEOF, pos := 3, val := "\n" }]
  ∧ lexAll "a = true\n\nb = 1" =
      [{ typ := TokTy.tokKey, pos := 0, val := "a" },
       { typ := TokTy.tokKeySep, pos := 2, val := "=" },
       { typ := TokTy.tokBool, pos := 4, val := "true" },
       { typ := TokTy.tokEOF, pos := 8, val := "\n" }] :=
  ⟨parseBEq_sound 1000 _ _ (by decide), parseBEq_sound 1000 _ _ (by decide),
   by decide, by decide⟩

/-- Claim C2: after a section-group node is decoded, the following
top-level nodes are resolved against the value reached by that group's key
path, not against the original root: the general equation shows the nodes
after a group are processed with the group's descended cursor, and the
concrete decode shows a later group [b] landing inside the earlier group
[a]'s map (the root has no binding for b). -/
theorem c2_cursor_thm :
    (∀ (fuel : Nat) (root : RVal) (cursor : List Step) (keys : List String)
        (text : String) (entries : List (String × Value)) (rest : List TopNode)
        (r1 r2 : RVal) (c1 : List Step),
        descendKeys root cursor keys = Except.ok (r1, some c1) →
        applyEntries fuel r1 c1 entries = Except.ok r2 →
        topGo fuel root cursor (TopNode.group keys text entries :: rest) =
          topGo fuel r2 c1 rest)
  ∧ unmarshalDyn "[a]\nx = 1\n[b]\ny = 2\n" =
      Except.ok (RVal.rMap (RVal.rIface none)
        [("a", RVal.rMap (RVal.rIface none)
          [("x", RVal.rInt 1),
           ("b", RVal.rMap (RVal.rIface none) [("y", RVal.rInt 2)])])]) := by
  constructor
  · intro fuel root cursor keys text entries rest r1 r2 c1 h1 h2
    simp only [topGo, h1, h2]
  · exact rvalResBEq_sound 1000 _ _ (by decide)

/-- Witness for claim C2's general equation, at a concrete two-group
document: processing continues from the cursor that points inside group
a's freshly created map. -/
theorem c2_cursor_witness :
    topGo 9 (RVal.rMap (RVal.rIface none) []) []
        [TopNode.group ["a"] "[a]" [("x", numLit 1 "1")],
         TopNode.group ["b"] "[b]" [("y", numLit 2 "2")]] =
      topGo 9
        (RVal.rMap (RVal.rIface none)
          [("a", RVal.rMap (RVal.rIface none) [("x", RVal.rInt 1)])])
        [Step.mapKey "a"]
        [TopNode.group ["b"] "[b]" [("y", numLit 2 "2")]] :=
  c2_cursor_thm.1 9 (RVal.rMap (RVal.rIface none) []) [] ["a"] "[a]"
    [("x", numLit 1 "1")] [TopNode.group ["b"] "[b]" [("y", numLit 2 "2")]]
    (RVal.rMap (RVal.rIface none) [("a", RVal.rMap (RVal.rIface none) [])])
    (RVal.rMap (RVal.rIface none)
      [("a", RVal.rMap (RVal.rIface none) [("x", RVal.rInt 1)])])
    [Step.mapKey "a"] rfl rfl

/-- Claim C3, counterexample: a section-group header key with no matching
field does not merely skip that group — decode.top returns, so the later
matching group [User] is never applied: the target comes back unchanged,
its Name field still the empty string. -/
theorem c3_counterexample :
    unmarshalInto rcT "[Nope]\nx = 1\n[User]\nName = \"g\"\n" = Except.ok rcT
  ∧ getAt rcT [Step.fieldIdx 1, Step.fieldIdx 0] = some (RVal.rString "") :=
  ⟨rvalResBEq_sound 1000 _ _ (by decide), rfl⟩

/-- Claim C3, amended: an entry key with no matching field is silently
skipped — no error, the target unchanged for that key — and decoding
continues with the remaining entries and groups; but a section-group
header key with no matching field makes the decoder return silently,
ignoring the rest of the document (earlier assignments persist). -/
theorem c3_amended_thm :
    unmarshalInto rcT "Bogus = 1\nA = 2\n[User]\nName = \"guten\"\n" =
      Except.ok (RVal.rStruct
        [({ fname := "A", tag := "", canSet := true }, RVal.rInt 2),
         ({ fname := "User", tag := "", canSet := true },
           RVal.rStruct [({ fname := "Name", tag := "", canSet := true },
             RVal.rString "guten")])])
  ∧ unmarshalInto rcT "A = 7\n[Zzz]\nq = 5\n" =
      Except.ok (RVal.rStruct
        [({ fname := "A", tag := "", canSet := true }, RVal.rInt 7),
         ({ fname := "User", tag := "", canSet := true },
           RVal.rStruct [({ fname := "Name", tag := "", canSet := true },
             RVal.rString "")])]) :=
  ⟨rvalResBEq_sound 1000 _ _ (by decide), rvalResBEq_sound 1000 _ _ (by decide)⟩

/-- Claim C4, counterexample: decoding the two identically-named groups
into a record does not make the second group's entries overwrite the
first's — the second [owner] is resolved against the Owner sub-record,
finds no field named owner there, and the decoder stops silently, leaving
Name = "a" (the claim predicts "b"). -/
theorem c4_counterexample :
    unmarshalInto sOwner "[owner]\nname = \"a\"\n[owner]\nname = \"b\"\n" =
      Except.ok (RVal.rStruct
        [({ fname := "Owner", tag := "", canSet := true },
          RVal.rStruct [({ fname := "Name", tag := "", canSet := true },
            RVal.rString "a")])]) :=
  rvalResBEq_sound 1000 _ _ (by decide)

/-- Claim C4, amended: the second identically-named group is resolved
against the value reached by the first group, not the root: a
keyed-mapping target gets a fresh blank map created at the nested path
owner.owner, which the second group's entries fill; a record target finds
no matching field inside the first group's sub-record and decoding stops
silently, so the earlier entries persist (Name = "a"). -/
theorem c4_amended_thm :
    unmarshalDyn "[owner]\nname = \"a\"\n[owner]\nname = \"b\"\n" =
      Except.ok (RVal.rMap (RVal.rIface none)
        [("owner", RVal.rMap (RVal.rIface none)
          [("name", RVal.rString "a"),
           ("owner", RVal.rMap (RVal.rIface none) [("name", RVal.rString "b")])])])
  ∧ unmarshalInto sOwner "[owner]\nname = \"a\"\n[owner]\nname = \"b\"\n" =
      Except.ok (RVal.rStruct
        [({ fname := "Owner", tag := "", canSet := true },
          RVal.rStruct [({ fname := "Name", tag := "", canSet := true },
            RVal.rString "a")])]) :=
  ⟨rvalResBEq_sound 1000 _ _ (by decide), rvalResBEq_sound 1000 _ _ (by decide)⟩

/-- Claim C5, counterexample: an array separator immediately before the
closing bracket is not a syntax error — a = [1,] parses to the
one-element Array [1]. -/
theorem c5_counterexample :
    Parse "a = [1,]" =
      Except.ok [TopNode.entry "a" (Value.arr [numLit 1 "1"])] :=
  parseBEq_sound 1000 _ _ (by decide)

/-- Claim C5, amended: after an element, a separator is demanded only when
the next non-space token is not the array close, so a separator directly
before the close is consumed and the close then ends the array: [1,] and
[1, 2,] parse to the Arrays [1] and [1, 2]; a separator with no preceding
element, as in [,], is still a syntax error. -/
theorem c5_amended_thm :
    Parse "a = [1,]" =
      Except.ok [TopNode.entry "a" (Value.arr [numLit 1 "1"])]
  ∧ Parse "a = [1, 2,]" =
      Except.ok [TopNode.entry "a" (Value.arr [numLit 1 "1", numLit 2 "2"])]
  ∧ isErr (Parse "a = [,]") = true :=
  ⟨parseBEq_sound 1000 _ _ (by decide), parseBEq_sound 1000 _ _ (by decide),
   by decide⟩

/-- Claim C6: the grammar admits boolean array elements, but after
emitting a boolean token the scanner transitions to its start state
instead of the value state, so the comma after true inside the array is
read in start state and becomes a lexical error; Parse fails on
a = [true, false]. -/
theorem c6_failing_thm :
    isErr (Parse "a = [true, false]") = true
  ∧ lexAll "a = [true, false]" =
      [{ typ := TokTy.tokKey, pos := 0, val := "a" },
       { typ := TokTy.tokKeySep, pos := 2, val := "=" },
       { typ := TokTy.tokArrayStart, pos := 4, val := "[" },
       { typ := TokTy.tokBool, pos := 5, val := "true" },
       { typ := TokTy.tokError, pos := 9, val := "lexStart parse error ," }] :=
  ⟨by decide, by decide⟩

/-- Claim C7, counterexample: a field whose toml tag is "Port" is matched
by the document key "port" — the tag comparison is also case-insensitive
— whereas the resolution rule as the spec words it (tag must equal the
key exactly) matches nothing. -/
theorem c7_counterexample :
    goFindIdx [({ fname := "X", tag := "Port", canSet := true }, RVal.rInt 0)] "port" =
      some 0
  ∧ specFindIdx [({ fname := "X", tag := "Port", canSet := true }, RVal.rInt 0)] "port" =
      none :=
  ⟨rfl, rfl⟩

/-- Claim C7, amended: field resolution computes an effective name — the
toml tag if nonempty, else the field's natural name — and matches the
document key case-insensitively against it in both cases; the first such
settable field wins.  goFindIdx coincides with this rule on all inputs. -/
theorem c7_amended_thm :
    ∀ (fs : List (FieldInfo × RVal)) (key : String),
      goFindIdx fs key = ciFindIdx fs key := by
  intro fs key
  induction fs with
  | nil => rfl
  | cons p rest ih =>
    cases p with
    | mk fi v =>
      simp only [goFindIdx, ciFindIdx, nameMatches_eqFold]
      cases hm : eqFold (effName fi) key with
      | false => simp [ih]
      | true =>
        cases hc : fi.canSet with
        | false => simp [hc, ih]
        | true => simp [hc]

/-- Claim C8: a successfully built Number node has exactly one of IsInt
and IsFloat set (the integer parse is tried first, falling back to the
floating-point parse); the text 3 becomes integer 3 and the text 3.0
becomes float 3.0, both standalone and through a dynamic decode. -/
theorem c8_thm :
    (∀ s : String, numberXor (newNumber s) = true)
  ∧ newNumber "3" = Except.ok ⟨true, false, 3, ⟨0, 1⟩, "3"⟩
  ∧ newNumber "3.0" = Except.ok ⟨false, true, 0, ⟨3, 1⟩, "3.0"⟩
  ∧ unmarshalDyn "a = 3\nb = 3.0" =
      Except.ok (RVal.rMap (RVal.rIface none)
        [("a", RVal.rInt 3), ("b", RVal.rFloat { num := 3, den := 1 })]) := by
  refine ⟨?_, by rfl, by rfl, rvalResBEq_sound 1000 _ _ (by decide)⟩
  intro s
  cases h1 : goParseInt s with
  | some i => simp [newNumber, numberXor, h1]
  | none =>
    cases h2 : goParseFloat s with
    | some q => simp [newNumber, numberXor, h1, h2]
    | none => simp [newNumber, numberXor, h1, h2]

/-- Claim C9: decoding an Array node of n elements into a growable
sequence target of length at most n yields a sequence of exactly n
elements (the loop decodes positionally); into a fixed-size sequence
shorter than n it fails with the run-out error; into an interface target
it materializes a fresh sequence of exactly n untyped values. -/
theorem c9_thm :
    (∀ (fuel : Nat) (z : RVal) (xs : List RVal) (nodes : List Value) (w : RVal),
        xs.length ≤ nodes.length →
        decodeValue (fuel + 1) (RVal.rSlice z xs) (Value.arr nodes) = Except.ok w →
        ∃ ys, w = RVal.rSlice z ys ∧ ys.length = nodes.length)
  ∧ (∀ (fuel : Nat) (xs : List RVal) (nodes : List Value),
        xs.length < nodes.length →
        decodeValue (fuel + 1) (RVal.rArray xs) (Value.arr nodes) =
          Except.error "run out of fixed array")
  ∧ (∀ (fuel : Nat) (nodes : List Value) (x : Option RVal) (w : RVal),
        decodeValue fuel (RVal.rIface x) (Value.arr nodes) = Except.ok w →
        ∃ ys, w = RVal.rIface (some (RVal.rSlice (RVal.rIface none) ys)) ∧
          ys.length = nodes.length) := by
  refine ⟨?_, ?_, ?_⟩
  · intro fuel z xs nodes w hle h
    simp only [decodeValue, decRun] at h
    by_cases hlt : xs.length < nodes.length
    · rw [if_pos hlt] at h
      cases hm : decRun fuel
          (DIn.many (xs ++ List.replicate (nodes.length - xs.length) z) nodes) with
      | error e => rw [hm] at h; cases h
      | ok o =>
        rw [hm] at h
        cases o with
        | one _ => cases h
        | many ys =>
          cases h
          refine ⟨ys, rfl, ?_⟩
          have hl := decRun_many_length fuel _ nodes ys hm
          simp [hl, Nat.add_sub_cancel' hle]
    · rw [if_neg hlt] at h
      have heq : xs.length = nodes.length := Nat.le_antisymm hle (Nat.not_lt.mp hlt)
      cases hm : decRun fuel (DIn.many xs nodes) with
      | error e => rw [hm] at h; cases h
      | ok o =>
        rw [hm] at h
        cases o with
        | one _ => cases h
        | many ys =>
          cases h
          refine ⟨ys, rfl, ?_⟩
          have hl := decRun_many_length fuel _ nodes ys hm
          simp [hl, heq]
  · intro fuel xs nodes hlt
    simp [decodeValue, decRun, hlt]
  · intro fuel nodes x w h
    cases fuel with
    | zero => simp [decodeValue, decRun] at h
    | succ fuel =>
      simp only [decodeValue, decRun] at h
      cases hm : decRun fuel
          (DIn.many (List.replicate nodes.length (RVal.rIface none)) nodes) with
      | error e => rw [hm] at h; cases h
      | ok o =>
        rw [hm] at h
        cases o with
        | one _ => cases h
        | many ys =>
          cases h
          refine ⟨ys, rfl, ?_⟩
          have hl := decRun_many_length fuel _ nodes ys hm
          simp [hl]

/-- Witness for claim C9 at concrete inputs: an empty slice grows to the
two decoded booleans; a one-slot fixed array fails on two elements; an
interface target materializes a one-element untyped sequence. -/
theorem c9_witness :
    (∃ ys, RVal.rSlice (RVal.rIface none)
        [RVal.rIface (some (RVal.rBool true)), RVal.rIface (some (RVal.rBool false))] =
          RVal.rSlice (RVal.rIface none) ys ∧ ys.length = 2)
  ∧ decodeValue 5 (RVal.rArray [RVal.rInt 0])
      (Value.arr [Value.bool true, Value.bool false]) =
        Except.error "run out of fixed array"
  ∧ (∃ ys, RVal.rIface (some (RVal.rSlice (RVal.rIface none)
        [RVal.rIface (some (RVal.rBool true))])) =
          RVal.rIface (some (RVal.rSlice (RVal.rIface none) ys)) ∧ ys.length = 1) := by
  refine ⟨?_, ?_, ?_⟩
  · exact c9_thm.1 4 (RVal.rIface none) [] [Value.bool true, Value.bool false]
      (RVal.rSlice (RVal.rIface none)
        [RVal.rIface (some (RVal.rBool true)), RVal.rIface (some (RVal.rBool false))])
      (by decide) (rvalResBEq_sound 50 _ _ (by decide))
  · exact c9_thm.2.1 4 [RVal.rInt 0] [Value.bool true, Value.bool false] (by decide)
  · exact c9_thm.2.2 5 [Value.bool true] none
      (RVal.rIface (some (RVal.rSlice (RVal.rIface none)
        [RVal.rIface (some (RVal.rBool true))])))
      (rvalResBEq_sound 50 _ _ (by decide))

/-- Claim C10: an unterminated string, a bad key separator and a number
with a trailing letter each make Parse fail with an error; no Document is
produced. -/
theorem c10_thm :
    isErr (Parse "a = \"abc") = true
  ∧ isErr (Parse "key ? value") = true
  ∧ isErr (Parse "a = 5x") = true :=
  ⟨by decide, by decide, by decide⟩

end Toml
